import Mathlib

/-!
Shallow embedding of the rukpak plain-provisioner BundleInstance controller
(internal/provisioner/plain/controllers/bundleinstance_controller.go) and of
the v1alpha1 API types it reads, together with theorems settling the spec
claims about the release-state decision engine, chart materialization,
ownership labelling, dynamic-watch bookkeeping and status reporting.

Modelling conventions: Go errors are inductive types whose constructors
distinguish the sentinel errors the code tests for (IsNotFound,
ErrReleaseNotFound); machine words are Nat reduced mod 2^32; the Kubernetes
client, the bundle storage and the Helm action client are environment
parameters supplying the results of the external calls a single
reconciliation pass makes; the deferred status patch is the single patch
recorded after the body of the pass runs.
-/

namespace Rukpak

/-! ## Conditions (k8s.io/apimachinery meta.SetStatusCondition semantics) -/

inductive ConditionStatus
  | condTrue
  | condFalse
  | condUnknown
  deriving DecidableEq, Repr

structure Condition where
  type : String
  status : ConditionStatus
  reason : String
  message : String
  deriving DecidableEq, Repr

/-- meta.SetStatusCondition upserts by condition type: an existing condition
of the same type is replaced in place, otherwise the condition is appended. -/
def setStatusCondition (conds : List Condition) (c : Condition) : List Condition :=
  if conds.any (fun x => x.type == c.type) then
    conds.map (fun x => if x.type == c.type then c else x)
  else
    conds ++ [c]

/-- Lookup of a condition by type, as meta.FindStatusCondition does. -/
def findCondition (conds : List Condition) (t : String) : Option Condition :=
  conds.find? (fun x => x.type == t)

/-! ## Error types -/

/-- Kubernetes client errors: the code only distinguishes IsNotFound. -/
inductive K8sErr
  | notFound (msg : String)
  | other (msg : String)
  deriving DecidableEq, Repr

def K8sErr.message : K8sErr → String
  | .notFound m => m
  | .other m => m

def K8sErr.isNotFound : K8sErr → Bool
  | .notFound _ => true
  | .other _ => false

/-- client.IgnoreNotFound: a not-found error becomes a nil error. -/
def ignoreNotFound (e : K8sErr) : Option String :=
  if e.isNotFound then none else some e.message

/-- Helm action errors: the code only tests errors.Is(err, driver.ErrReleaseNotFound). -/
inductive HelmErr
  | releaseNotFound
  | other (msg : String)
  deriving DecidableEq, Repr

def HelmErr.message : HelmErr → String
  | .releaseNotFound => "release: not found"
  | .other m => m

def HelmErr.isReleaseNotFound : HelmErr → Bool
  | .releaseNotFound => true
  | .other _ => false

/-! ## Releases (helm.sh/helm/v3/pkg/release) -/

inductive ReleaseStatus
  | unknown
  | deployed
  | uninstalled
  | superseded
  | failed
  | uninstalling
  | pendingInstall
  | pendingUpgrade
  | pendingRollback
  deriving DecidableEq, Repr

structure Release where
  manifest : String
  status : ReleaseStatus
  deriving DecidableEq, Repr

/-! ## API types (api/v1alpha1) -/

def PhasePending : String := "Pending"
def PhaseUnpacking : String := "Unpacking"
def PhaseFailing : String := "Failing"
def PhaseUnpacked : String := "Unpacked"

def TypeHasValidBundle : String := "HasValidBundle"
def TypeInvalidBundleContent : String := "InvalidBundleContent"
def TypeInstalled : String := "Installed"

def ReasonBundleLookupFailed : String := "BundleLookupFailed"
def ReasonBundleLoadFailed : String := "BundleLoadFailed"
def ReasonReadingContentFailed : String := "ReadingContentFailed"
def ReasonErrorGettingClient : String := "ErrorGettingClient"
def ReasonErrorGettingReleaseState : String := "ErrorGettingReleaseState"
def ReasonInstallFailed : String := "InstallFailed"
def ReasonUpgradeFailed : String := "UpgradeFailed"
def ReasonReconcileFailed : String := "ReconcileFailed"
def ReasonCreateDynamicWatchFailed : String := "CreateDynamicWatchFailed"
def ReasonInstallationSucceeded : String := "InstallationSucceeded"

structure BundleStatus where
  phase : String
  deriving DecidableEq, Repr

structure Bundle where
  name : String
  status : BundleStatus
  deriving DecidableEq, Repr

structure BundleInstanceSpec where
  bundleName : String
  deriving DecidableEq, Repr

structure BundleInstanceStatus where
  conditions : List Condition
  installedBundleName : String
  deriving DecidableEq, Repr

structure BundleInstance where
  name : String
  spec : BundleInstanceSpec
  status : BundleInstanceStatus
  deriving DecidableEq, Repr

/-- GroupVersionKind, the dynamic-watch registry key. -/
structure GVK where
  group : String
  version : String
  kind : String
  deriving DecidableEq, Repr

/-- A manifest object loaded from bundle storage: identity fields, labels and
an opaque body.  Labels are an association list; lookup is by key. -/
structure ManifestObject where
  group : String
  version : String
  kind : String
  name : String
  ns : String
  labels : List (String × String)
  body : String
  deriving DecidableEq, Repr

def ManifestObject.gvk (o : ManifestObject) : GVK :=
  { group := o.group, version := o.version, kind := o.kind }

def getLabel (labels : List (String × String)) (k : String) : Option String :=
  (labels.find? (fun p => p.1 == k)).map (fun p => p.2)

/-! ## The Helm action client (helm-operator-plugins ActionInterface) -/

structure Chart where
  templates : List (String × List Nat)
  deriving DecidableEq, Repr

/-- The subset of the Helm action interface the controller calls.  upgrade
takes the dry-run flag the controller sets through the upgrade option. -/
structure ActionClient where
  getRel : String → Except HelmErr Release
  install : String → String → Chart → Bool → Except HelmErr Release
  upgrade : String → String → Chart → Bool → Except HelmErr Release
  reconcileRel : Option Release → Option String

inductive ReleaseState
  | needsInstall
  | needsUpgrade
  | unchanged
  | stError
  deriving DecidableEq, Repr

/-- getReleaseState, transcribed from bundleinstance_controller.go lines
284-305: look the release up by name; a not-found lookup means
needs-install; any other lookup error is state error; otherwise run a
dry-run upgrade, propagate its error as state error, and compare the
dry-run manifest with the current manifest byte for byte, with the
failed/superseded status override forcing needs-upgrade. -/
def getReleaseState (cl : ActionClient) (releaseNamespace : String)
    (objName : String) (chrt : Chart) :
    Option Release × ReleaseState × Option HelmErr :=
  match cl.getRel objName with
  | .error e =>
      if e.isReleaseNotFound then
        (none, .needsInstall, none)
      else
        (none, .stError, some e)
  | .ok currentRelease =>
      match cl.upgrade objName releaseNamespace chrt true with
      | .error e => (some currentRelease, .stError, some e)
      | .ok desiredRelease =>
          if desiredRelease.manifest ≠ currentRelease.manifest ∨
              currentRelease.status = .failed ∨
              currentRelease.status = .superseded then
            (some currentRelease, .needsUpgrade, none)
          else
            (some currentRelease, .unchanged, none)

/-! ## SHA-256 (crypto/sha256), over byte lists, words as Nat mod 2^32 -/

def w32 (n : Nat) : Nat := n % 4294967296

def rotr32 (x n : Nat) : Nat := w32 ((x >>> n) ||| (x <<< (32 - n)))

def shaCh (x y z : Nat) : Nat := (x &&& y) ^^^ ((4294967295 ^^^ x) &&& z)

def shaMaj (x y z : Nat) : Nat := (x &&& y) ^^^ (x &&& z) ^^^ (y &&& z)

def bigSigma0 (x : Nat) : Nat := rotr32 x 2 ^^^ rotr32 x 13 ^^^ rotr32 x 22

def bigSigma1 (x : Nat) : Nat := rotr32 x 6 ^^^ rotr32 x 11 ^^^ rotr32 x 25

def smallSigma0 (x : Nat) : Nat := rotr32 x 7 ^^^ rotr32 x 18 ^^^ (x >>> 3)

def smallSigma1 (x : Nat) : Nat := rotr32 x 17 ^^^ rotr32 x 19 ^^^ (x >>> 10)

def shaK : List Nat :=
  [1116352408, 1899447441, 3049323471, 3921009573, 961987163,
   1508970993, 2453635748, 2870763221, 3624381080, 310598401,
   607225278, 1426881987, 1925078388, 2162078206, 2614888103,
   3248222580, 3835390401, 4022224774, 264347078, 604807628,
   770255983, 1249150122, 1555081692, 1996064986, 2554220882,
   2821834349, 2952996808, 3210313671, 3336571891, 3584528711,
   113926993, 338241895, 666307205, 773529912, 1294757372,
   1396182291, 1695183700, 1986661051, 2177026350, 2456956037,
   2730485921, 2820302411, 3259730800, 3345764771, 3516065817,
   3600352804, 4094571909, 275423344, 430227734, 506948616,
   659060556, 883997877, 958139571, 1322822218, 1537002063,
   1747873779, 1955562222, 2024104815, 2227730452, 2361852424,
   2428436474, 2756734187, 3204031479, 3329325298]

structure ShaState where
  a : Nat
  b : Nat
  c : Nat
  d : Nat
  e : Nat
  f : Nat
  g : Nat
  h : Nat
  deriving Repr

def shaInit : ShaState :=
  { a := 1779033703, b := 3144134277, c := 1013904242, d := 2773480762,
    e := 1359893119, f := 2600822924, g := 528734635, h := 1541459225 }

/-- Assemble 32-bit big-endian words from four consecutive bytes each. -/
def bytesToWords : List Nat → List Nat
  | b0 :: b1 :: b2 :: b3 :: rest =>
      (b0 * 16777216 + b1 * 65536 + b2 * 256 + b3) :: bytesToWords rest
  | _ => []

/-- Message-schedule extension of the 16 block words to 64. -/
def extendSchedule (w16 : Array Nat) : Array Nat :=
  (List.range 48).foldl
    (fun w i =>
      let t := i + 16
      w.push (w32 (smallSigma1 (w.getD (t - 2) 0) + w.getD (t - 7) 0 +
        smallSigma0 (w.getD (t - 15) 0) + w.getD (t - 16) 0)))
    w16

def shaRound (st : ShaState) (kt wt : Nat) : ShaState :=
  let t1 := w32 (st.h + bigSigma1 st.e + shaCh st.e st.f st.g + kt + wt)
  let t2 := w32 (bigSigma0 st.a + shaMaj st.a st.b st.c)
  { a := w32 (t1 + t2), b := st.a, c := st.b, d := st.c,
    e := w32 (st.d + t1), f := st.e, g := st.f, h := st.g }

/-- One compression-function application on a 64-byte block. -/
def shaCompress (st : ShaState) (block : List Nat) : ShaState :=
  let w := extendSchedule (Array.mk (bytesToWords block))
  let fin := (List.range 64).foldl
    (fun s t => shaRound s (shaK.getD t 0) (w.getD t 0)) st
  { a := w32 (st.a + fin.a), b := w32 (st.b + fin.b), c := w32 (st.c + fin.c),
    d := w32 (st.d + fin.d), e := w32 (st.e + fin.e), f := w32 (st.f + fin.f),
    g := w32 (st.g + fin.g), h := w32 (st.h + fin.h) }

/-- SHA-256 padding: 0x80, zeros to 56 mod 64, 8-byte big-endian bit length. -/
def shaPad (msg : List Nat) : List Nat :=
  let len := msg.length
  let zeroCount := (64 + 56 - (len + 1) % 64) % 64
  let bitLen := len * 8
  msg ++ [0x80] ++ List.replicate zeroCount 0 ++
    [bitLen >>> 56 % 256, bitLen >>> 48 % 256, bitLen >>> 40 % 256,
     bitLen >>> 32 % 256, bitLen >>> 24 % 256, bitLen >>> 16 % 256,
     bitLen >>> 8 % 256, bitLen % 256]

def chunks64 (l : List Nat) : List (List Nat) :=
  if h : l = [] then []
  else
    have : (l.drop 64).length < l.length := by
      rw [List.length_drop]
      have hl : 0 < l.length := List.length_pos.mpr h
      omega
    l.take 64 :: chunks64 (l.drop 64)
termination_by l.length

/-- Big-endian 4-byte rendering of a 32-bit word. -/
def beBytes4 (x : Nat) : List Nat :=
  [x >>> 24 % 256, x >>> 16 % 256, x >>> 8 % 256, x % 256]

/-- SHA-256 digest of a byte list: 32 bytes. -/
def sha256 (msg : List Nat) : List Nat :=
  let fin := (chunks64 (shaPad msg)).foldl shaCompress shaInit
  beBytes4 fin.a ++ beBytes4 fin.b ++ beBytes4 fin.c ++ beBytes4 fin.d ++
    beBytes4 fin.e ++ beBytes4 fin.f ++ beBytes4 fin.g ++ beBytes4 fin.h

theorem sha256_length (msg : List Nat) : (sha256 msg).length = 32 := by
  simp [sha256, beBytes4]

theorem beBytes4_lt (x : Nat) : ∀ b ∈ beBytes4 x, b < 256 := by
  intro b hb
  simp only [beBytes4, List.mem_cons, List.not_mem_nil, or_false] at hb
  rcases hb with h | h | h | h <;> subst h <;> exact Nat.mod_lt _ (by omega)

theorem sha256_bytes_lt (msg : List Nat) :
    ∀ b ∈ sha256 msg, b < 256 := by
  intro b hb
  simp only [sha256, List.mem_append] at hb
  rcases hb with ((((((h | h) | h) | h) | h) | h) | h) | h <;>
    exact beBytes4_lt _ b h

/-! ## Hex encoding (per-byte lowercase, as Go fmt %x over a byte slice) -/

def hexDigit : Nat → Char
  | 0 => '0'
  | 1 => '1'
  | 2 => '2'
  | 3 => '3'
  | 4 => '4'
  | 5 => '5'
  | 6 => '6'
  | 7 => '7'
  | 8 => '8'
  | 9 => '9'
  | 10 => 'a'
  | 11 => 'b'
  | 12 => 'c'
  | 13 => 'd'
  | 14 => 'e'
  | _ => 'f'

def hexByte (b : Nat) : List Char := [hexDigit (b / 16), hexDigit (b % 16)]

def hexChars (bs : List Nat) : List Char := (bs.map hexByte).flatten

def hexString (bs : List Nat) : String := ⟨hexChars bs⟩

/-! ## Serialization and chart materialization -/

def strBytes (s : String) : List Nat := s.data.map Char.toNat

def renderLabels : List (String × String) → String
  | [] => ""
  | (k, v) :: rest => "    " ++ k ++ ": " ++ v ++ "\n" ++ renderLabels rest

/-- Models yaml.Marshal of a loaded manifest object: a canonical textual
form including the identity fields, the labels and the body. -/
def serializeObject (o : ManifestObject) : List Nat :=
  strBytes ("apiVersion: " ++ o.group ++ "/" ++ o.version ++
    "\nkind: " ++ o.kind ++
    "\nmetadata:\n  name: " ++ o.name ++
    "\n  namespace: " ++ o.ns ++
    "\n  labels:\n" ++ renderLabels o.labels ++ o.body)

/-- The template name formula of the spec: object-, the hex encoding of the
first eight digest bytes, and a .yaml suffix. -/
def templateName (o : ManifestObject) : String :=
  "object-" ++ hexString ((sha256 (serializeObject o)).take 8) ++ ".yaml"

/-- The chart-building loop of Reconcile (lines 146-162): serialize each
object, hash the bytes, and append a template file named from the first
eight digest bytes; the first serialization failure aborts the pass.
marshalErr injects the possible yaml.Marshal failure of the external
serializer. -/
def buildTemplates (marshalErr : ManifestObject → Option String) :
    List ManifestObject → Except String (List (String × List Nat))
  | [] => .ok []
  | o :: rest =>
      match marshalErr o with
      | some msg => .error msg
      | none =>
          let jsonData := serializeObject o
          let hash := sha256 jsonData
          match buildTemplates marshalErr rest with
          | .error msg => .error msg
          | .ok ts =>
              .ok (("object-" ++ hexString (hash.take 8) ++ ".yaml", jsonData) :: ts)

/-! ## Ownership labelling and bundle loading -/

/-- Modelled from the spec: util.MergeMaps (internal/util, not under src/)
merges label maps left to right, later maps overriding earlier keys,
without removing any pre-existing keys. -/
def mergeMaps (m1 m2 : List (String × String)) : List (String × String) :=
  m1.filter (fun p => (m2.find? (fun q => q.1 == p.1)).isNone) ++ m2

/-- The two fixed owner labels stamped on every loaded object. -/
def ownerPairs (n : String) : List (String × String) :=
  [("core.rukpak.io/owner-kind", "BundleInstance"),
   ("core.rukpak.io/owner-name", n)]

inductive LoadErr
  | getFailed (msg : String)
  | notUnpacked (phase : String)
  | loadFailed (msg : String)
  deriving DecidableEq, Repr

/-- errBundleNotUnpacked.Error and the fmt.Errorf wrappings of loadBundle. -/
def LoadErr.message : LoadErr → String
  | .getFailed m => m
  | .notUnpacked p =>
      if p = "" then "bundle is not yet unpacked"
      else "bundle is not yet unpacked, current phase=" ++ p
  | .loadFailed m => m

/-- loadBundle (lines 319-343): fetch the Bundle, fail distinctly when its
phase is not Unpacked, load the stored objects, and stamp each object with
the two fixed owner labels. -/
def loadBundle (bundleGet : Except K8sErr Bundle)
    (storageLoad : Except String (List ManifestObject))
    (bi : BundleInstance) : Except LoadErr (List ManifestObject) :=
  match bundleGet with
  | .error e =>
      .error (.getFailed ("get bundle \"" ++ bi.spec.bundleName ++ "\": " ++ e.message))
  | .ok b =>
      if b.status.phase ≠ PhaseUnpacked then
        .error (.notUnpacked b.status.phase)
      else
        match storageLoad with
        | .error msg => .error (.loadFailed ("load bundle objects: " ++ msg))
        | .ok objects =>
            .ok (objects.map (fun o =>
              { o with labels := mergeMaps o.labels (ownerPairs bi.name) }))

/-! ## Dynamic watch registry -/

/-- The lock-protected critical section of the watch loop (lines 241-255):
taken with the write lock held for its whole extent, it checks membership,
establishes the subscription when the kind is absent, and records the kind
only when the subscription succeeded.  Returns the new registry, the list
of subscriptions established (empty or a singleton), and the error. -/
def ensureWatched (watchOutcome : GVK → Option String) (gvk : GVK)
    (watched : List GVK) : List GVK × List GVK × Option String :=
  if gvk ∈ watched then (watched, [], none)
  else
    match watchOutcome gvk with
    | some msg => (watched, [], some msg)
    | none => (watched ++ [gvk], [gvk], none)

/-- The per-object watch loop of Reconcile (lines 228-265): convert each
object to unstructured form (a conversion failure aborts), then run the
lock-protected registration; registry growth from earlier objects
persists across a later failure. -/
def watchLoop (toUErr : ManifestObject → Option String)
    (watchOutcome : GVK → Option String) :
    List ManifestObject → List GVK → List GVK →
    List GVK × List GVK × Option String
  | [], watched, calls => (watched, calls, none)
  | o :: rest, watched, calls =>
      match toUErr o with
      | some msg => (watched, calls, some msg)
      | none =>
          match ensureWatched watchOutcome o.gvk watched with
          | (w, est, some msg) => (w, calls ++ est, some msg)
          | (w, est, none) => watchLoop toUErr watchOutcome rest w (calls ++ est)

/-- N reconciliation passes each running the atomic critical section for the
same kind, in the order the lock serializes them; returns the final
registry, the total number of subscriptions established, and whether every
pass completed without a watch-registration error. -/
def runPasses (watchOutcome : GVK → Option String) (gvk : GVK) :
    Nat → List GVK → List GVK × Nat × Bool
  | 0, watched => (watched, 0, true)
  | n + 1, watched =>
      match ensureWatched watchOutcome gvk watched with
      | (w, est, e) =>
          match runPasses watchOutcome gvk n w with
          | (wfin, total, ok) => (wfin, est.length + total, e.isNone && ok)

/-! ## The reconciliation pass (Reconcile, lines 87-273) -/

/-- The collaborators one pass consults after the BundleInstance has been
fetched: the Bundle lookup, the storage load, the serializer failure
injection, the Helm action-client acquisition, the unstructured-conversion
failure injection, the watch-establishment outcome per kind, and the
configured release namespace. -/
structure PassEnv where
  bundleGet : Except K8sErr Bundle
  storageLoad : Except String (List ManifestObject)
  marshalErr : ManifestObject → Option String
  clientFor : Except String ActionClient
  toUnstructuredErr : ManifestObject → Option String
  watchOutcome : GVK → Option String
  releaseNamespace : String

structure ReconcileEnv extends PassEnv where
  biGet : Except K8sErr BundleInstance
  patchSucceeds : Bool

structure ApplyCounts where
  installCalls : Nat
  upgradeCalls : Nat
  reconcileCalls : Nat
  deriving DecidableEq, Repr

/-- What the body of one pass produces: the status the deferred patch will
carry, the returned error, the final watch registry, the subscriptions
established, and how often each apply operation ran. -/
structure PassResult where
  patchedStatus : BundleInstanceStatus
  err : Option String
  watched : List GVK
  watchCalls : List GVK
  counts : ApplyCounts

def withCondition (st : BundleInstanceStatus) (c : Condition) : BundleInstanceStatus :=
  { st with conditions := setStatusCondition st.conditions c }

/-- The tail of the pass after a successful apply: register a watch per
object, abort on the first registration failure, otherwise record full
success and advance the installed bundle name. -/
def finishPass (env : PassEnv) (bi : BundleInstance) (watched0 : List GVK)
    (objs : List ManifestObject) (st : BundleInstanceStatus)
    (counts : ApplyCounts) : PassResult :=
  match watchLoop env.toUnstructuredErr env.watchOutcome objs watched0 [] with
  | (w, calls, some msg) =>
      { patchedStatus := withCondition st
          ⟨TypeInstalled, .condFalse, ReasonCreateDynamicWatchFailed, msg⟩,
        err := some msg, watched := w, watchCalls := calls, counts := counts }
  | (w, calls, none) =>
      { patchedStatus :=
          { conditions := setStatusCondition st.conditions
              ⟨TypeInstalled, .condTrue, ReasonInstallationSucceeded, ""⟩,
            installedBundleName := bi.spec.bundleName },
        err := none, watched := w, watchCalls := calls, counts := counts }

/-- The body of Reconcile once the BundleInstance is in hand (lines
104-272): Bundle lookup, content load, chart build, client acquisition,
release-state evaluation, the install/upgrade/reconcile switch, and the
dynamic-watch loop, accumulating conditions on the way. -/
def reconcileBody (env : PassEnv) (bi : BundleInstance) (watched0 : List GVK) :
    PassResult :=
  let st := bi.status
  let noEff : ApplyCounts := ⟨0, 0, 0⟩
  let stop := fun (st' : BundleInstanceStatus) (e : Option String) =>
    ({ patchedStatus := st', err := e, watched := watched0, watchCalls := [],
       counts := noEff } : PassResult)
  match env.bundleGet with
  | .error e =>
      let cstatus := if e.isNotFound then ConditionStatus.condFalse
        else ConditionStatus.condUnknown
      stop (withCondition st
        ⟨TypeHasValidBundle, cstatus, ReasonBundleLookupFailed, e.message⟩)
        (ignoreNotFound e)
  | .ok b =>
      match loadBundle env.bundleGet env.storageLoad bi with
      | .error (.notUnpacked _) =>
          let reason := if b.status.phase == PhaseUnpacking then "BundleUnpackRunning"
            else "BundleUnpack" ++ b.status.phase
          stop (withCondition st ⟨TypeInstalled, .condFalse, reason, ""⟩) none
      | .error le =>
          stop (withCondition st
            ⟨TypeHasValidBundle, .condFalse, ReasonBundleLoadFailed, le.message⟩)
            (some le.message)
      | .ok desiredObjects =>
          match buildTemplates env.marshalErr desiredObjects with
          | .error msg =>
              stop (withCondition st
                ⟨TypeInvalidBundleContent, .condTrue, ReasonReadingContentFailed, msg⟩)
                (some msg)
          | .ok templates =>
              match env.clientFor with
              | .error msg =>
                  stop (withCondition st
                    ⟨TypeInstalled, .condFalse, ReasonErrorGettingClient, msg⟩)
                    (some msg)
              | .ok cl =>
                  let chrt : Chart := ⟨templates⟩
                  match getReleaseState cl env.releaseNamespace bi.name chrt with
                  | (_, _, some e) =>
                      stop (withCondition st
                        ⟨TypeInstalled, .condFalse, ReasonErrorGettingReleaseState,
                          e.message⟩) (some e.message)
                  | (rel, state, none) =>
                      match state with
                      | .needsInstall =>
                          match cl.install bi.name env.releaseNamespace chrt false with
                          | .error e =>
                              { patchedStatus := withCondition st
                                  ⟨TypeInstalled, .condFalse, ReasonInstallFailed,
                                    e.message⟩,
                                err := some e.message, watched := watched0,
                                watchCalls := [], counts := ⟨1, 0, 0⟩ }
                          | .ok _ =>
                              finishPass env bi watched0 desiredObjects st ⟨1, 0, 0⟩
                      | .needsUpgrade =>
                          match cl.upgrade bi.name env.releaseNamespace chrt false with
                          | .error e =>
                              { patchedStatus := withCondition st
                                  ⟨TypeInstalled, .condFalse, ReasonUpgradeFailed,
                                    e.message⟩,
                                err := some e.message, watched := watched0,
                                watchCalls := [], counts := ⟨0, 1, 0⟩ }
                          | .ok _ =>
                              finishPass env bi watched0 desiredObjects st ⟨0, 1, 0⟩
                      | .unchanged =>
                          match cl.reconcileRel rel with
                          | some e =>
                              { patchedStatus := withCondition st
                                  ⟨TypeInstalled, .condFalse, ReasonReconcileFailed, e⟩,
                                err := some e, watched := watched0,
                                watchCalls := [], counts := ⟨0, 0, 1⟩ }
                          | none =>
                              finishPass env bi watched0 desiredObjects st ⟨0, 0, 1⟩
                      | .stError =>
                          stop st (some "unexpected release state \"Error\"")

/-- What Reconcile returns and does: the error handed back to the
controller runtime, the statuses patched (with the outcome of each patch
attempt), and the effects of the pass.  When the initial BundleInstance
fetch fails the function returns before the deferred patch is installed,
so no patch is attempted. -/
structure ReconcileOutput where
  err : Option String
  patches : List BundleInstanceStatus
  patchResults : List Bool
  watched : List GVK
  watchCalls : List GVK
  counts : ApplyCounts

def reconcile (env : ReconcileEnv) (watched0 : List GVK) : ReconcileOutput :=
  match env.biGet with
  | .error e =>
      { err := ignoreNotFound e, patches := [], patchResults := [],
        watched := watched0, watchCalls := [], counts := ⟨0, 0, 0⟩ }
  | .ok bi =>
      let r := reconcileBody env.toPassEnv bi watched0
      { err := r.err, patches := [r.patchedStatus],
        patchResults := [env.patchSucceeds], watched := r.watched,
        watchCalls := r.watchCalls, counts := r.counts }

/-! ## Concrete fixtures used by witness theorems -/

def relDeployed : Release := ⟨"m1", .deployed⟩

def relFailed : Release := ⟨"m1", .failed⟩

def clNotFound : ActionClient :=
  ⟨fun _ => .error .releaseNotFound, fun _ _ _ _ => .ok relDeployed,
   fun _ _ _ _ => .ok relDeployed, fun _ => none⟩

def clUnchanged : ActionClient :=
  ⟨fun _ => .ok relDeployed, fun _ _ _ _ => .ok relDeployed,
   fun _ _ _ _ => .ok relDeployed, fun _ => none⟩

def clFailedStatus : ActionClient :=
  ⟨fun _ => .ok relFailed, fun _ _ _ _ => .ok relFailed,
   fun _ _ _ _ => .ok relFailed, fun _ => none⟩

def clLookupBroken : ActionClient :=
  ⟨fun _ => .error (.other "boom"), fun _ _ _ _ => .ok relDeployed,
   fun _ _ _ _ => .ok relDeployed, fun _ => none⟩

/-! ## C1: the release-state table -/

/-- C1: getReleaseState returns exactly the spec state table: a
release-not-found lookup yields needs-install; with an existing release, a
dry-run manifest differing byte-for-byte from the current manifest yields
needs-upgrade regardless of status; byte-equal manifests with status
failed or superseded yield needs-upgrade; byte-equal manifests with any
other status yield unchanged; any lookup error other than
release-not-found, and any dry-run error, yield state error with the error
propagated. -/
theorem getReleaseState_state_table (cl : ActionClient) (ns obj : String)
    (chrt : Chart) :
    (cl.getRel obj = .error .releaseNotFound →
      getReleaseState cl ns obj chrt = (none, .needsInstall, none)) ∧
    (∀ msg, cl.getRel obj = .error (.other msg) →
      getReleaseState cl ns obj chrt = (none, .stError, some (.other msg))) ∧
    (∀ cur des, cl.getRel obj = .ok cur →
      cl.upgrade obj ns chrt true = .ok des →
      des.manifest ≠ cur.manifest →
      getReleaseState cl ns obj chrt = (some cur, .needsUpgrade, none)) ∧
    (∀ cur des, cl.getRel obj = .ok cur →
      cl.upgrade obj ns chrt true = .ok des →
      des.manifest = cur.manifest →
      (cur.status = .failed ∨ cur.status = .superseded) →
      getReleaseState cl ns obj chrt = (some cur, .needsUpgrade, none)) ∧
    (∀ cur des, cl.getRel obj = .ok cur →
      cl.upgrade obj ns chrt true = .ok des →
      des.manifest = cur.manifest →
      cur.status ≠ .failed → cur.status ≠ .superseded →
      getReleaseState cl ns obj chrt = (some cur, .unchanged, none)) ∧
    (∀ cur e, cl.getRel obj = .ok cur →
      cl.upgrade obj ns chrt true = .error e →
      getReleaseState cl ns obj chrt = (some cur, .stError, some e)) := by
  refine ⟨?_, ?_, ?_, ?_, ?_, ?_⟩
  · intro h
    simp [getReleaseState, h, HelmErr.isReleaseNotFound]
  · intro msg h
    simp [getReleaseState, h, HelmErr.isReleaseNotFound]
  · intro cur des h1 h2 h3
    simp [getReleaseState, h1, h2, h3]
  · intro cur des h1 h2 h3 h4
    rcases h4 with h4 | h4 <;> simp [getReleaseState, h1, h2, h3, h4]
  · intro cur des h1 h2 h3 h4 h5
    simp [getReleaseState, h1, h2, h3, h4, h5]
  · intro cur e h1 h2
    simp [getReleaseState, h1, h2]

/-- Witness for C1 at concrete action clients covering four rows of the
table. -/
theorem getReleaseState_state_table_witness :
    getReleaseState clNotFound "rukpak-system" "inst-a" ⟨[]⟩ =
      (none, .needsInstall, none) ∧
    getReleaseState clUnchanged "rukpak-system" "inst-a" ⟨[]⟩ =
      (some relDeployed, .unchanged, none) ∧
    getReleaseState clFailedStatus "rukpak-system" "inst-a" ⟨[]⟩ =
      (some relFailed, .needsUpgrade, none) ∧
    getReleaseState clLookupBroken "rukpak-system" "inst-a" ⟨[]⟩ =
      (none, .stError, some (.other "boom")) :=
  ⟨(getReleaseState_state_table clNotFound "rukpak-system" "inst-a" ⟨[]⟩).1 rfl,
   (getReleaseState_state_table clUnchanged "rukpak-system" "inst-a" ⟨[]⟩).2.2.2.2.1
     relDeployed relDeployed rfl rfl rfl (by decide) (by decide),
   (getReleaseState_state_table clFailedStatus "rukpak-system" "inst-a" ⟨[]⟩).2.2.2.1
     relFailed relFailed rfl rfl rfl (Or.inl rfl),
   (getReleaseState_state_table clLookupBroken "rukpak-system" "inst-a" ⟨[]⟩).2.1
     "boom" rfl⟩

/-! ## Condition-upsert lemmas -/

theorem findCondition_map_ne (conds : List Condition) (c : Condition) (t : String)
    (h : c.type ≠ t) :
    findCondition (conds.map (fun x => if x.type == c.type then c else x)) t =
      findCondition conds t := by
  induction conds with
  | nil => rfl
  | cons x xs ih =>
      simp only [List.map_cons, findCondition] at *
      by_cases hx : x.type = c.type
      · rw [if_pos (by simpa [beq_iff_eq] using hx)]
        rw [List.find?_cons_of_neg _ (by simp [beq_iff_eq]; exact h)]
        rw [List.find?_cons_of_neg _ (by simp [beq_iff_eq, hx]; exact h)]
        exact ih
      · rw [if_neg (by simpa [beq_iff_eq] using hx)]
        by_cases hxt : x.type = t
        · rw [List.find?_cons_of_pos _ (by simp [beq_iff_eq, hxt]),
            List.find?_cons_of_pos _ (by simp [beq_iff_eq, hxt])]
        · rw [List.find?_cons_of_neg _ (by simp [beq_iff_eq]; exact hxt),
            List.find?_cons_of_neg _ (by simp [beq_iff_eq]; exact hxt)]
          exact ih

theorem findCondition_append_ne (conds : List Condition) (c : Condition)
    (t : String) (h : c.type ≠ t) :
    findCondition (conds ++ [c]) t = findCondition conds t := by
  simp only [findCondition, List.find?_append]
  have hc : List.find? (fun x => x.type == t) [c] = none := by
    rw [List.find?_cons_of_neg _ (by simp [beq_iff_eq]; exact h)]
    rfl
  rw [hc]
  cases List.find? (fun x => x.type == t) conds <;> rfl

/-- Upserting a condition leaves the lookup of every other type unchanged. -/
theorem findCondition_set_ne (conds : List Condition) (c : Condition)
    (t : String) (h : c.type ≠ t) :
    findCondition (setStatusCondition conds c) t = findCondition conds t := by
  unfold setStatusCondition
  split
  · exact findCondition_map_ne conds c t h
  · exact findCondition_append_ne conds c t h

theorem findCondition_map_self (conds : List Condition) (c : Condition)
    (hany : conds.any (fun x => x.type == c.type)) :
    findCondition (conds.map (fun x => if x.type == c.type then c else x)) c.type =
      some c := by
  induction conds with
  | nil => cases hany
  | cons y ys ih =>
      simp only [List.any_cons, Bool.or_eq_true] at hany
      simp only [List.map_cons, findCondition]
      by_cases hy : y.type = c.type
      · rw [if_pos (by simpa [beq_iff_eq] using hy)]
        rw [List.find?_cons_of_pos _ (by simp)]
      · rw [if_neg (by simpa [beq_iff_eq] using hy)]
        rw [List.find?_cons_of_neg _ (by simp [beq_iff_eq]; exact hy)]
        have hys : ys.any (fun x => x.type == c.type) := by
          rcases hany with hh | hh
          · exact absurd (by simpa [beq_iff_eq] using hh) hy
          · exact hh
        exact ih hys

/-- Upserting a condition makes the lookup of its own type return it. -/
theorem findCondition_set_self (conds : List Condition) (c : Condition) :
    findCondition (setStatusCondition conds c) c.type = some c := by
  unfold setStatusCondition
  split
  · rename_i hany
    exact findCondition_map_self conds c hany
  · rename_i hany
    simp only [findCondition, List.find?_append]
    have hnone : List.find? (fun x => x.type == c.type) conds = none := by
      rw [List.find?_eq_none]
      intro x hx
      intro hbeq
      exact hany (List.any_eq_true.mpr ⟨x, hx, hbeq⟩)
    rw [hnone]
    simp [List.find?]

/-! ## Reconcile fixtures -/

def biA : BundleInstance := ⟨"inst-a", ⟨"pkg-a"⟩, ⟨[], ""⟩⟩

def bundleUnpacked : Bundle := ⟨"pkg-a", ⟨PhaseUnpacked⟩⟩

def bundlePending : Bundle := ⟨"pkg-a", ⟨PhasePending⟩⟩

def bundleUnpacking : Bundle := ⟨"pkg-a", ⟨PhaseUnpacking⟩⟩

def objA : ManifestObject :=
  ⟨"apps", "v1", "Deployment", "dep-a", "ns-a", [("app", "a")], "spec: x\n"⟩

def envBase : ReconcileEnv :=
  { bundleGet := .ok bundleUnpacked,
    storageLoad := .ok [objA],
    marshalErr := fun _ => none,
    clientFor := .ok clUnchanged,
    toUnstructuredErr := fun _ => none,
    watchOutcome := fun _ => none,
    releaseNamespace := "rukpak-system",
    biGet := .ok biA,
    patchSucceeds := true }

/-! ## C2: bundle exists but is not yet unpacked -/

/-- C2: when the Bundle exists with a phase other than Unpacked, the pass
returns a nil error, patches exactly one status whose Installed condition
is False with reason BundleUnpackRunning for phase Unpacking and
BundleUnpack followed by the phase name otherwise, and leaves the
HasValidBundle condition untouched. -/
theorem reconcile_bundle_not_unpacked (env : ReconcileEnv) (w0 : List GVK)
    (bi : BundleInstance) (b : Bundle)
    (hbi : env.biGet = .ok bi) (hb : env.bundleGet = .ok b)
    (hph : b.status.phase ≠ PhaseUnpacked) :
    (reconcile env w0).err = none ∧
    (reconcile env w0).patches =
      [withCondition bi.status
        ⟨TypeInstalled, .condFalse,
          if b.status.phase == PhaseUnpacking then "BundleUnpackRunning"
          else "BundleUnpack" ++ b.status.phase, ""⟩] ∧
    ∀ st ∈ (reconcile env w0).patches,
      findCondition st.conditions TypeHasValidBundle =
        findCondition bi.status.conditions TypeHasValidBundle := by
  have hout : reconcile env w0 =
      { err := none,
        patches := [withCondition bi.status
          ⟨TypeInstalled, .condFalse,
            if b.status.phase == PhaseUnpacking then "BundleUnpackRunning"
            else "BundleUnpack" ++ b.status.phase, ""⟩],
        patchResults := [env.patchSucceeds], watched := w0, watchCalls := [],
        counts := ⟨0, 0, 0⟩ } := by
    simp [reconcile, reconcileBody, loadBundle, hbi, hb, hph, withCondition]
  refine ⟨by rw [hout], by rw [hout], ?_⟩
  intro st hst
  rw [hout] at hst
  simp only [List.mem_singleton] at hst
  subst hst
  exact findCondition_set_ne _ _ _
    (show TypeInstalled ≠ TypeHasValidBundle by decide)

def envPending : ReconcileEnv := { envBase with bundleGet := .ok bundlePending }

/-- Witness for C2 at a Bundle in phase Pending. -/
theorem reconcile_bundle_not_unpacked_witness :
    (reconcile envPending []).err = none ∧
    (reconcile envPending []).patches =
      [withCondition biA.status
        ⟨TypeInstalled, .condFalse,
          if bundlePending.status.phase == PhaseUnpacking then "BundleUnpackRunning"
          else "BundleUnpack" ++ bundlePending.status.phase, ""⟩] ∧
    ∀ st ∈ (reconcile envPending []).patches,
      findCondition st.conditions TypeHasValidBundle =
        findCondition biA.status.conditions TypeHasValidBundle :=
  reconcile_bundle_not_unpacked envPending [] biA bundlePending rfl rfl (by decide)

/-! ## C10: Bundle lookup failure -/

/-- C10: when the Bundle fetch fails, the pass patches a HasValidBundle
condition with reason BundleLookupFailed whose status is False exactly for
a not-found error and Unknown otherwise, and it returns a nil error
exactly when the failure is not-found. -/
theorem reconcile_bundle_lookup_failed (env : ReconcileEnv) (w0 : List GVK)
    (bi : BundleInstance) (e : K8sErr)
    (hbi : env.biGet = .ok bi) (hb : env.bundleGet = .error e) :
    (reconcile env w0).patches =
      [withCondition bi.status
        ⟨TypeHasValidBundle,
          if e.isNotFound then .condFalse else .condUnknown,
          ReasonBundleLookupFailed, e.message⟩] ∧
    ((reconcile env w0).err = none ↔ e.isNotFound = true) := by
  have hout : reconcile env w0 =
      { err := ignoreNotFound e,
        patches := [withCondition bi.status
          ⟨TypeHasValidBundle,
            if e.isNotFound then .condFalse else .condUnknown,
            ReasonBundleLookupFailed, e.message⟩],
        patchResults := [env.patchSucceeds], watched := w0, watchCalls := [],
        counts := ⟨0, 0, 0⟩ } := by
    simp [reconcile, reconcileBody, hbi, hb, withCondition]
  refine ⟨by rw [hout], ?_⟩
  rw [hout]
  cases he : e.isNotFound <;> simp [ignoreNotFound, he]

def envLookupNotFound : ReconcileEnv :=
  { envBase with bundleGet := .error (.notFound "bundles pkg-a not found") }

def envLookupBroken : ReconcileEnv :=
  { envBase with bundleGet := .error (.other "connection refused") }

/-- Witness for C10 at a not-found error and at a transient lookup error. -/
theorem reconcile_bundle_lookup_failed_witness :
    ((reconcile envLookupNotFound []).patches =
      [withCondition biA.status
        ⟨TypeHasValidBundle,
          if (K8sErr.notFound "bundles pkg-a not found").isNotFound then .condFalse
          else .condUnknown,
          ReasonBundleLookupFailed,
          (K8sErr.notFound "bundles pkg-a not found").message⟩] ∧
      ((reconcile envLookupNotFound []).err = none ↔
        (K8sErr.notFound "bundles pkg-a not found").isNotFound = true)) ∧
    ((reconcile envLookupBroken []).patches =
      [withCondition biA.status
        ⟨TypeHasValidBundle,
          if (K8sErr.other "connection refused").isNotFound then .condFalse
          else .condUnknown,
          ReasonBundleLookupFailed,
          (K8sErr.other "connection refused").message⟩] ∧
      ((reconcile envLookupBroken []).err = none ↔
        (K8sErr.other "connection refused").isNotFound = true)) :=
  ⟨reconcile_bundle_lookup_failed envLookupNotFound [] biA
      (.notFound "bundles pkg-a not found") rfl rfl,
   reconcile_bundle_lookup_failed envLookupBroken [] biA
      (.other "connection refused") rfl rfl⟩

/-! ## C6: ownership labels -/

/-- mergeMaps lookup semantics: the second map wins on its own keys and
every other key falls through to the first map. -/
theorem getLabel_mergeMaps (m1 m2 : List (String × String)) (k : String) :
    getLabel (mergeMaps m1 m2) k = (getLabel m2 k).or (getLabel m1 k) := by
  induction m1 with
  | nil =>
      simp only [mergeMaps, List.filter_nil, List.nil_append]
      cases h : getLabel m2 k <;> simp [Option.or, h, getLabel]
  | cons p rest ih =>
      simp only [mergeMaps, List.filter_cons] at *
      by_cases hp2 : (List.find? (fun q => q.1 == p.1) m2).isNone
      · rw [if_pos hp2]
        by_cases hpk : p.1 = k
        · have hfind : List.find? (fun q => q.1 == k) m2 = none := by
            rw [← hpk]
            exact Option.isNone_iff_eq_none.mp hp2
          have hm2 : getLabel m2 k = none := by simp [getLabel, hfind]
          rw [hm2]
          simp only [List.cons_append, getLabel]
          rw [List.find?_cons_of_pos _ (by simp [beq_iff_eq, hpk]),
            List.find?_cons_of_pos _ (by simp [beq_iff_eq, hpk])]
          rfl
        · simp only [List.cons_append]
          have hlhs : getLabel (p :: (List.filter
              (fun x => (List.find? (fun q => q.1 == x.1) m2).isNone) rest ++ m2)) k =
              getLabel (List.filter
                (fun x => (List.find? (fun q => q.1 == x.1) m2).isNone) rest ++ m2) k := by
            simp only [getLabel]
            rw [List.find?_cons_of_neg _ (by simp [beq_iff_eq]; exact hpk)]
          rw [hlhs, ih]
          have hrhs : getLabel (p :: rest) k = getLabel rest k := by
            simp only [getLabel]
            rw [List.find?_cons_of_neg _ (by simp [beq_iff_eq]; exact hpk)]
          rw [hrhs]
      · rw [if_neg hp2]
        rw [ih]
        by_cases hpk : p.1 = k
        · have hne : List.find? (fun q => q.1 == p.1) m2 ≠ none := by
            intro hn
            exact hp2 (by simp [hn])
          obtain ⟨q, hq⟩ := Option.ne_none_iff_exists'.mp hne
          have hm2 : getLabel m2 k = some q.2 := by
            rw [← hpk]
            simp [getLabel, hq]
          rw [hm2]
          rfl
        · have hrhs : getLabel (p :: rest) k = getLabel rest k := by
            simp only [getLabel]
            rw [List.find?_cons_of_neg _ (by simp [beq_iff_eq]; exact hpk)]
          rw [hrhs]

/-- C6 (mergeMaps is modelled from the spec, its source being outside
src/): every object loadBundle returns carries the owner-kind label with
the fixed BundleInstance constant and the owner-name label with the
InstallationRequest's name, and every other label keeps the value it had
on the stored object. -/
theorem loadBundle_owner_labels (bundleGet : Except K8sErr Bundle)
    (storageLoad : Except String (List ManifestObject)) (bi : BundleInstance)
    (b : Bundle) (objs : List ManifestObject)
    (hb : bundleGet = .ok b) (hph : b.status.phase = PhaseUnpacked)
    (hload : storageLoad = .ok objs) :
    ∃ out, loadBundle bundleGet storageLoad bi = .ok out ∧
      out.length = objs.length ∧
      ∀ i (hi : i < objs.length) (ho : i < out.length),
        getLabel (out.get ⟨i, ho⟩).labels "core.rukpak.io/owner-kind" =
          some "BundleInstance" ∧
        getLabel (out.get ⟨i, ho⟩).labels "core.rukpak.io/owner-name" =
          some bi.name ∧
        ∀ k, k ≠ "core.rukpak.io/owner-kind" → k ≠ "core.rukpak.io/owner-name" →
          getLabel (out.get ⟨i, ho⟩).labels k =
            getLabel (objs.get ⟨i, hi⟩).labels k := by
  have hout : loadBundle bundleGet storageLoad bi =
      .ok (objs.map (fun o =>
        { o with labels := mergeMaps o.labels (ownerPairs bi.name) })) := by
    simp [loadBundle, hb, hph, hload]
  refine ⟨_, hout, by simp, ?_⟩
  intro i hi ho
  have hget : (objs.map (fun o =>
      { o with labels := mergeMaps o.labels (ownerPairs bi.name) })).get
        ⟨i, by simpa using hi⟩ =
      { objs.get ⟨i, hi⟩ with
          labels := mergeMaps (objs.get ⟨i, hi⟩).labels (ownerPairs bi.name) } := by
    simp
  refine ⟨?_, ?_, ?_⟩
  · rw [hget, getLabel_mergeMaps]
    simp [getLabel, ownerPairs, List.find?]
  · rw [hget, getLabel_mergeMaps]
    simp [getLabel, ownerPairs, List.find?]
  · intro k hk1 hk2
    rw [hget, getLabel_mergeMaps]
    have howner : getLabel (ownerPairs bi.name) k = none := by
      simp only [getLabel, ownerPairs]
      rw [List.find?_cons_of_neg _ (by simp [beq_iff_eq]; exact Ne.symm hk1),
        List.find?_cons_of_neg _ (by simp [beq_iff_eq]; exact Ne.symm hk2)]
      rfl
    rw [howner]
    cases getLabel (objs.get ⟨i, hi⟩).labels k <;> rfl

/-- Witness for C6 at a concrete bundle with one labelled object. -/
theorem loadBundle_owner_labels_witness :
    ∃ out, loadBundle (.ok bundleUnpacked) (.ok [objA]) biA = .ok out ∧
      out.length = [objA].length ∧
      ∀ i (hi : i < [objA].length) (ho : i < out.length),
        getLabel (out.get ⟨i, ho⟩).labels "core.rukpak.io/owner-kind" =
          some "BundleInstance" ∧
        getLabel (out.get ⟨i, ho⟩).labels "core.rukpak.io/owner-name" =
          some biA.name ∧
        ∀ k, k ≠ "core.rukpak.io/owner-kind" → k ≠ "core.rukpak.io/owner-name" →
          getLabel (out.get ⟨i, ho⟩).labels k =
            getLabel ([objA].get ⟨i, hi⟩).labels k :=
  loadBundle_owner_labels (.ok bundleUnpacked) (.ok [objA]) biA
    bundleUnpacked [objA] rfl rfl rfl

/-! ## Shared helper: chart building succeeds when serialization does -/

theorem buildTemplates_ok (marshalErr : ManifestObject → Option String)
    (objs : List ManifestObject) (hm : ∀ o ∈ objs, marshalErr o = none) :
    buildTemplates marshalErr objs = .ok (objs.map (fun o =>
      ("object-" ++ hexString ((sha256 (serializeObject o)).take 8) ++ ".yaml",
       serializeObject o))) := by
  induction objs with
  | nil => rfl
  | cons o rest ih =>
      have ho : marshalErr o = none := hm o (by simp)
      have hrest := ih (fun x hx => hm x (by simp [hx]))
      simp [buildTemplates, ho, hrest]

/-! ## C4: at-most-once watch registration, failure aborts the pass -/

/-- C4: the lock-protected registration is a no-op when the kind is already
in the registry; when the kind is absent and establishing the subscription
fails, the kind is not inserted; and a pass whose first watch registration
fails patches Installed=False with reason CreateDynamicWatchFailed,
returns an error, and leaves the registry untouched. -/
theorem dynamicWatch_registration :
    (∀ (f : GVK → Option String) (gvk : GVK) (w : List GVK), gvk ∈ w →
      ensureWatched f gvk w = (w, [], none)) ∧
    (∀ (f : GVK → Option String) (gvk : GVK) (w : List GVK) (msg : String),
      gvk ∉ w → f gvk = some msg →
      ensureWatched f gvk w = (w, [], some msg)) ∧
    (∀ (env : ReconcileEnv) (w0 : List GVK) (bi : BundleInstance) (b : Bundle)
      (o : ManifestObject) (rest : List ManifestObject) (cl : ActionClient)
      (relX : Release) (msg : String),
      env.biGet = .ok bi →
      env.bundleGet = .ok b →
      b.status.phase = PhaseUnpacked →
      env.storageLoad = .ok (o :: rest) →
      (∀ x, env.marshalErr x = none) →
      env.clientFor = .ok cl →
      cl.getRel bi.name = .error .releaseNotFound →
      (∀ nm ns c flag, cl.install nm ns c flag = .ok relX) →
      (∀ x, env.toUnstructuredErr x = none) →
      o.gvk ∉ w0 →
      env.watchOutcome o.gvk = some msg →
      (reconcile env w0).err = some msg ∧
      (reconcile env w0).watched = w0 ∧
      (reconcile env w0).watchCalls = [] ∧
      ∀ st ∈ (reconcile env w0).patches,
        findCondition st.conditions TypeInstalled =
          some ⟨TypeInstalled, .condFalse, ReasonCreateDynamicWatchFailed, msg⟩) := by
  refine ⟨?_, ?_, ?_⟩
  · intro f gvk w hw
    simp [ensureWatched, hw]
  · intro f gvk w msg hw hf
    simp [ensureWatched, hw, hf]
  · intro env w0 bi b o rest cl relX msg hbi hb hph hload hm hcl hrel hinst htoU hnw hwatch
    have hloadok : loadBundle (.ok b) env.storageLoad bi =
        .ok ((o :: rest).map (fun x =>
          { x with labels := mergeMaps x.labels (ownerPairs bi.name) })) := by
      simp [loadBundle, hph, hload]
    have hbt := buildTemplates_ok env.marshalErr
      ((o :: rest).map (fun x =>
        { x with labels := mergeMaps x.labels (ownerPairs bi.name) }))
      (fun x _ => hm x)
    have hstate : ∀ c, getReleaseState cl env.releaseNamespace bi.name c =
        (none, .needsInstall, none) := by
      intro c
      simp [getReleaseState, hrel, HelmErr.isReleaseNotFound]
    have hgvk : ({ o with labels := mergeMaps o.labels (ownerPairs bi.name) } :
        ManifestObject).gvk = o.gvk := rfl
    have hout : reconcile env w0 =
        { err := some msg,
          patches := [withCondition bi.status
            ⟨TypeInstalled, .condFalse, ReasonCreateDynamicWatchFailed, msg⟩],
          patchResults := [env.patchSucceeds], watched := w0, watchCalls := [],
          counts := ⟨1, 0, 0⟩ } := by
      simp only [reconcile, hbi]
      simp only [reconcileBody, hb, hloadok, hbt, hcl, hstate, hinst]
      simp only [finishPass, List.map_cons, watchLoop, htoU, ensureWatched,
        hgvk, hwatch]
      simp [hnw, withCondition]
    refine ⟨by rw [hout], by rw [hout], by rw [hout], ?_⟩
    intro st hst
    rw [hout] at hst
    simp only [List.mem_singleton] at hst
    subst hst
    exact findCondition_set_self _ _

def gvkA : GVK := ⟨"apps", "v1", "Deployment"⟩

def envWatchFail : ReconcileEnv :=
  { envBase with
    clientFor := Except.ok clNotFound,
    watchOutcome := fun _ => some "watch failed" }

/-- Witness for C4: a present kind no-ops, an absent kind with a failing
subscription is not inserted, and a concrete pass whose watch registration
fails aborts with the CreateDynamicWatchFailed condition. -/
theorem dynamicWatch_registration_witness :
    ensureWatched (fun _ => some "watch failed") gvkA [gvkA] = ([gvkA], [], none) ∧
    ensureWatched (fun _ => some "watch failed") gvkA [] =
      ([], [], some "watch failed") ∧
    ((reconcile envWatchFail []).err = some "watch failed" ∧
     (reconcile envWatchFail []).watched = [] ∧
     (reconcile envWatchFail []).watchCalls = [] ∧
     ∀ st ∈ (reconcile envWatchFail []).patches,
       findCondition st.conditions TypeInstalled =
         some ⟨TypeInstalled, .condFalse, ReasonCreateDynamicWatchFailed,
           "watch failed"⟩) :=
  ⟨dynamicWatch_registration.1 (fun _ => some "watch failed") gvkA [gvkA]
      (by simp),
   dynamicWatch_registration.2.1 (fun _ => some "watch failed") gvkA [] "watch failed"
      (by simp) rfl,
   dynamicWatch_registration.2.2 envWatchFail [] biA bundleUnpacked objA [] clNotFound
      relDeployed "watch failed" rfl rfl rfl rfl (fun _ => rfl) rfl rfl
      (fun _ _ _ _ => rfl) (fun _ => rfl) (by simp) (by rfl)⟩

/-! ## C5: exactly one subscription under N serialized critical sections -/

theorem runPasses_already (f : GVK → Option String) (gvk : GVK) (m : Nat)
    (w : List GVK) (hw : gvk ∈ w) : runPasses f gvk m w = (w, 0, true) := by
  induction m with
  | zero => rfl
  | succ k ih => simp [runPasses, ensureWatched, hw, ih]

/-- C5: with the check-then-insert sequence atomic under the unconditionally
taken write lock, any serialization of N concurrent passes that all meet a
previously-unwatched kind establishes exactly one subscription, every pass
completes without error, and the kind ends up registered once. -/
theorem runPasses_single_subscription (f : GVK → Option String) (gvk : GVK)
    (n : Nat) (w0 : List GVK) (hf : f gvk = none) (h0 : gvk ∉ w0)
    (hn : 1 ≤ n) : runPasses f gvk n w0 = (w0 ++ [gvk], 1, true) := by
  cases n with
  | zero => exact absurd hn (by omega)
  | succ m =>
      have h1 : ensureWatched f gvk w0 = (w0 ++ [gvk], [gvk], none) := by
        simp [ensureWatched, h0, hf]
      have h2 : runPasses f gvk m (w0 ++ [gvk]) = (w0 ++ [gvk], 0, true) :=
        runPasses_already f gvk m (w0 ++ [gvk]) (by simp)
      simp [runPasses, h1, h2]

/-- Witness for C5 at three passes racing on one fresh kind. -/
theorem runPasses_single_subscription_witness :
    runPasses (fun _ => none) gvkA 3 [] = ([gvkA], 1, true) :=
  runPasses_single_subscription (fun _ => none) gvkA 3 [] rfl (by simp)
    (by omega)

/-! ## C7: deterministic, order-preserving template naming -/

/-- C7: when serialization succeeds for every object, the chart-building
loop produces exactly one template per object in loader order, each named
object-, the hex encoding of the first eight SHA-256 digest bytes of the
serialized object, and .yaml; the name is a function of the serialized
bytes alone, so byte-identical serialized objects get identical names. -/
theorem chart_materializer_deterministic
    (marshalErr : ManifestObject → Option String) (objs : List ManifestObject)
    (hm : ∀ o ∈ objs, marshalErr o = none) :
    buildTemplates marshalErr objs =
      .ok (objs.map (fun o => (templateName o, serializeObject o))) ∧
    (∀ o : ManifestObject, templateName o =
      "object-" ++ hexString ((sha256 (serializeObject o)).take 8) ++ ".yaml") ∧
    (∀ o1 o2 : ManifestObject, serializeObject o1 = serializeObject o2 →
      templateName o1 = templateName o2) := by
  refine ⟨?_, fun o => rfl, ?_⟩
  · rw [buildTemplates_ok marshalErr objs hm]
    simp [templateName]
  · intro o1 o2 h
    simp only [templateName, h]

/-- Witness for C7 at a single-object bundle. -/
theorem chart_materializer_deterministic_witness :
    buildTemplates (fun _ => none) [objA] =
      .ok ([objA].map (fun o => (templateName o, serializeObject o))) ∧
    (∀ o : ManifestObject, templateName o =
      "object-" ++ hexString ((sha256 (serializeObject o)).take 8) ++ ".yaml") ∧
    (∀ o1 o2 : ManifestObject, serializeObject o1 = serializeObject o2 →
      templateName o1 = templateName o2) :=
  chart_materializer_deterministic (fun _ => none) [objA] (fun _ _ => rfl)

/-! ## C8: truncated-digest naming is not injective -/

/-- The eight digest bytes the template name is built from. -/
def digest8 (o : ManifestObject) : List Nat :=
  (sha256 (serializeObject o)).take 8

theorem digest8_length (o : ManifestObject) : (digest8 o).length = 8 := by
  simp [digest8, List.length_take, sha256_length]

theorem digest8_bytes_lt (o : ManifestObject) : ∀ b ∈ digest8 o, b < 256 := by
  intro b hb
  exact sha256_bytes_lt (serializeObject o) b (List.take_subset _ _ hb)

/-- Little-endian base-256 value of a byte list. -/
def bytesToNatLE : List Nat → Nat
  | [] => 0
  | b :: bs => b + 256 * bytesToNatLE bs

theorem bytesToNatLE_lt : ∀ l : List Nat, (∀ b ∈ l, b < 256) →
    bytesToNatLE l < 256 ^ l.length := by
  intro l
  induction l with
  | nil => intro _; simp [bytesToNatLE]
  | cons b bs ih =>
      intro hb
      have h1 : b < 256 := hb b (by simp)
      have h2 : bytesToNatLE bs < 256 ^ bs.length := ih (fun x hx => hb x (by simp [hx]))
      simp only [bytesToNatLE, List.length_cons, pow_succ]
      calc b + 256 * bytesToNatLE bs
        ≤ 255 + 256 * bytesToNatLE bs := by omega
        _ < 256 * (bytesToNatLE bs + 1) := by omega
        _ ≤ 256 * (256 ^ bs.length) := by
            have : bytesToNatLE bs + 1 ≤ 256 ^ bs.length := h2
            exact Nat.mul_le_mul_left 256 this
        _ = 256 ^ bs.length * 256 := by ring

theorem bytesToNatLE_inj : ∀ l1 l2 : List Nat, l1.length = l2.length →
    (∀ b ∈ l1, b < 256) → (∀ b ∈ l2, b < 256) →
    bytesToNatLE l1 = bytesToNatLE l2 → l1 = l2 := by
  intro l1
  induction l1 with
  | nil =>
      intro l2 hlen _ _ _
      cases l2 with
      | nil => rfl
      | cons c cs => simp at hlen
  | cons b bs ih =>
      intro l2 hlen hb1 hb2 heq
      cases l2 with
      | nil => simp at hlen
      | cons c cs =>
          simp only [bytesToNatLE] at heq
          have hblt : b < 256 := hb1 b (by simp)
          have hclt : c < 256 := hb2 c (by simp)
          have hbc : b = c := by omega
          have htail : bytesToNatLE bs = bytesToNatLE cs := by omega
          have hlen2 : bs.length = cs.length := by simpa using hlen
          have := ih cs hlen2 (fun x hx => hb1 x (by simp [hx]))
            (fun x hx => hb2 x (by simp [hx])) htail
          rw [hbc, this]

/-- An infinite family of manifest objects with pairwise distinct
serialized forms (their names have pairwise distinct lengths). -/
def gObj (n : Nat) : ManifestObject :=
  { group := "g", version := "v", kind := "k",
    name := String.mk (List.replicate n 'a'), ns := "n", labels := [],
    body := "b" }

theorem serializeObject_gObj_length (n : Nat) :
    (serializeObject (gObj n)).length = (serializeObject (gObj 0)).length + n := by
  simp [serializeObject, gObj, strBytes, renderLabels]
  omega

theorem serializeObject_gObj_ne (m n : Nat) (h : m ≠ n) :
    serializeObject (gObj m) ≠ serializeObject (gObj n) := by
  intro hc
  have h1 := serializeObject_gObj_length m
  have h2 := serializeObject_gObj_length n
  rw [hc] at h1
  omega

theorem hexDigit_inj : ∀ a b : Fin 16, hexDigit a.val = hexDigit b.val → a = b := by
  decide

theorem hexByte_inj (a b : Nat) (ha : a < 256) (hb : b < 256)
    (h : hexByte a = hexByte b) : a = b := by
  simp only [hexByte, List.cons.injEq, and_true] at h
  have hdiv : a / 16 = b / 16 := by
    have h16a : a / 16 < 16 := by omega
    have h16b : b / 16 < 16 := by omega
    have := hexDigit_inj ⟨a / 16, h16a⟩ ⟨b / 16, h16b⟩ h.1
    simpa using congrArg Fin.val this
  have hmod : a % 16 = b % 16 := by
    have h16a : a % 16 < 16 := by omega
    have h16b : b % 16 < 16 := by omega
    have := hexDigit_inj ⟨a % 16, h16a⟩ ⟨b % 16, h16b⟩ h.2
    simpa using congrArg Fin.val this
  omega

theorem hexChars_inj : ∀ l1 l2 : List Nat, l1.length = l2.length →
    (∀ b ∈ l1, b < 256) → (∀ b ∈ l2, b < 256) →
    hexChars l1 = hexChars l2 → l1 = l2 := by
  intro l1
  induction l1 with
  | nil =>
      intro l2 hlen _ _ _
      cases l2 with
      | nil => rfl
      | cons c cs => simp at hlen
  | cons b bs ih =>
      intro l2 hlen hb1 hb2 heq
      cases l2 with
      | nil => simp at hlen
      | cons c cs =>
          simp only [hexChars, List.map_cons, List.flatten_cons, hexByte,
            List.cons_append, List.nil_append, List.cons.injEq] at heq
          obtain ⟨h1, h2, h3⟩ := heq
          have hb : b = c := hexByte_inj b c (hb1 b (by simp)) (hb2 c (by simp))
            (by simp [hexByte, h1, h2])
          have hlen2 : bs.length = cs.length := by simpa using hlen
          have htail : bs = cs := ih cs hlen2 (fun x hx => hb1 x (by simp [hx]))
            (fun x hx => hb2 x (by simp [hx])) h3
          rw [hb, htail]

theorem objectName_inj (d1 d2 : List Nat) (hlen : d1.length = d2.length)
    (hb1 : ∀ b ∈ d1, b < 256) (hb2 : ∀ b ∈ d2, b < 256)
    (h : "object-" ++ hexString d1 ++ ".yaml" =
      "object-" ++ hexString d2 ++ ".yaml") : d1 = d2 := by
  have hdata := congrArg String.data h
  simp only [String.data_append] at hdata
  rw [List.append_assoc, List.append_assoc] at hdata
  have hmid := List.append_cancel_left hdata
  have hhex : (hexString d1).data = (hexString d2).data :=
    List.append_cancel_right hmid
  exact hexChars_inj d1 d2 hlen hb1 hb2 hhex

/-- C8 (amended): two template names agree exactly when the first eight
digest bytes agree — the name is injective in the truncated digest, not in
the object, so distinct objects are guaranteed distinct names only as far
as their eight-byte digest truncations differ. -/
theorem templateName_eq_iff_digest8_eq (o1 o2 : ManifestObject) :
    templateName o1 = templateName o2 ↔ digest8 o1 = digest8 o2 := by
  constructor
  · intro h
    exact objectName_inj (digest8 o1) (digest8 o2)
      (by rw [digest8_length, digest8_length])
      (digest8_bytes_lt o1) (digest8_bytes_lt o2) h
  · intro h
    simp only [templateName]
    rw [show (sha256 (serializeObject o1)).take 8 =
      (sha256 (serializeObject o2)).take 8 from h]

/-- Pigeonhole: a map from the naturals into eight-byte sequences
collides somewhere. -/
theorem exists_collision_of_bounded (d : Nat → List Nat)
    (hlen : ∀ n, (d n).length = 8) (hb : ∀ n, ∀ b ∈ d n, b < 256) :
    ∃ m n, m ≠ n ∧ d m = d n := by
  have hbound : ∀ n, bytesToNatLE (d n) < 256 ^ 8 := by
    intro n
    have := bytesToNatLE_lt (d n) (hb n)
    rwa [hlen] at this
  obtain ⟨m, n, hmn, hfeq⟩ := Finite.exists_ne_map_eq_of_infinite
    (fun n : Nat => (⟨bytesToNatLE (d n), hbound n⟩ : Fin (256 ^ 8)))
  have hval : bytesToNatLE (d m) = bytesToNatLE (d n) := congrArg Fin.val hfeq
  exact ⟨m, n, hmn,
    bytesToNatLE_inj _ _ (by rw [hlen, hlen]) (hb m) (hb n) hval⟩

/-- C8 counterexample: the template name, a function of an eight-byte
digest truncation, cannot be injective over the infinitely many distinct
serialized objects, so some two objects with different serialized forms
share a template name. -/
theorem templateName_not_injective :
    ¬ (∀ o1 o2 : ManifestObject, serializeObject o1 ≠ serializeObject o2 →
        templateName o1 ≠ templateName o2) := by
  intro hinj
  obtain ⟨m, n, hmn, hdig⟩ := exists_collision_of_bounded
    (fun k => digest8 (gObj k)) (fun k => digest8_length (gObj k))
    (fun k => digest8_bytes_lt (gObj k))
  have hname : templateName (gObj m) = templateName (gObj n) :=
    (templateName_eq_iff_digest8_eq (gObj m) (gObj n)).mpr hdig
  exact hinj (gObj m) (gObj n) (serializeObject_gObj_ne m n hmn) hname

/-! ## C3: installed bundle name advances only on full success -/

theorem reconcileBody_installedBundleName (env : PassEnv) (bi : BundleInstance)
    (w0 : List GVK) :
    (reconcileBody env bi w0).patchedStatus.installedBundleName =
      bi.status.installedBundleName ∨
    ((reconcileBody env bi w0).err = none ∧
     (reconcileBody env bi w0).patchedStatus.installedBundleName =
       bi.spec.bundleName ∧
     findCondition (reconcileBody env bi w0).patchedStatus.conditions
       TypeInstalled =
       some ⟨TypeInstalled, .condTrue, ReasonInstallationSucceeded, ""⟩) := by
  simp only [reconcileBody]
  repeat' split
  all_goals try exact Or.inl rfl
  all_goals simp only [finishPass]
  all_goals split
  all_goals try exact Or.inl rfl
  all_goals exact Or.inr ⟨rfl, rfl, findCondition_set_self _ _⟩

/-- C3: the status a pass patches carries the prior installed-bundle-name
unless the whole pass succeeded, in which case the name advances to the
referenced bundle, the returned error is nil and the Installed condition
records InstallationSucceeded. -/
theorem installedBundleName_only_on_success (env : ReconcileEnv)
    (w0 : List GVK) (bi : BundleInstance) (hbi : env.biGet = .ok bi) :
    ∀ st ∈ (reconcile env w0).patches,
      st.installedBundleName = bi.status.installedBundleName ∨
      ((reconcile env w0).err = none ∧
       st.installedBundleName = bi.spec.bundleName ∧
       findCondition st.conditions TypeInstalled =
         some ⟨TypeInstalled, .condTrue, ReasonInstallationSucceeded, ""⟩) := by
  intro st hst
  simp only [reconcile, hbi, List.mem_singleton] at hst
  subst hst
  simp only [reconcile, hbi]
  exact reconcileBody_installedBundleName env.toPassEnv bi w0

/-- The status the happy-path fixture ends up patching. -/
def stSuccessA : BundleInstanceStatus :=
  ⟨[⟨TypeInstalled, .condTrue, ReasonInstallationSucceeded, ""⟩], "pkg-a"⟩

/-- Witness for C3 at a concrete happy-path environment and its patched
status. -/
theorem installedBundleName_only_on_success_witness :
    stSuccessA.installedBundleName = biA.status.installedBundleName ∨
    ((reconcile envBase []).err = none ∧
     stSuccessA.installedBundleName = biA.spec.bundleName ∧
     findCondition stSuccessA.conditions TypeInstalled =
       some ⟨TypeInstalled, .condTrue, ReasonInstallationSucceeded, ""⟩) :=
  installedBundleName_only_on_success envBase [] biA rfl stSuccessA
    (by rw [show (reconcile envBase []).patches = [stSuccessA] from rfl]
        exact List.mem_singleton.mpr rfl)

/-! ## C9: the deferred status patch -/

def envBiGetFails : ReconcileEnv :=
  { envBase with biGet := Except.error (.notFound "bundleinstances inst-a not found") }

/-- C9 counterexample: when the initial InstallationRequest fetch fails,
Reconcile returns before the deferred patch is installed, so this exit
path attempts no status patch at all, against the claim of exactly one
patch attempt on every exit path. -/
theorem reconcile_no_patch_on_instance_fetch_failure :
    (reconcile envBiGetFails []).patches = [] ∧
    (reconcile envBiGetFails []).err = none := by
  constructor <;> rfl

/-- C9 (amended): once the InstallationRequest fetch succeeds, exactly one
status patch is attempted on every exit path, and the patch outcome is
invisible in everything the pass returns or does: error, patched status,
registry, subscriptions and apply counts are identical whether the patch
succeeds or fails. -/
theorem reconcile_patch_exactly_once (env : ReconcileEnv) (w0 : List GVK) :
    (∀ bi, env.biGet = .ok bi → (reconcile env w0).patches.length = 1) ∧
    (∀ b : Bool,
      (reconcile { env with patchSucceeds := b } w0).err =
        (reconcile env w0).err ∧
      (reconcile { env with patchSucceeds := b } w0).patches =
        (reconcile env w0).patches ∧
      (reconcile { env with patchSucceeds := b } w0).watched =
        (reconcile env w0).watched ∧
      (reconcile { env with patchSucceeds := b } w0).watchCalls =
        (reconcile env w0).watchCalls ∧
      (reconcile { env with patchSucceeds := b } w0).counts =
        (reconcile env w0).counts) := by
  constructor
  · intro bi h
    simp [reconcile, h]
  · intro b
    have h1 : ({ env with patchSucceeds := b } : ReconcileEnv).biGet =
      env.biGet := rfl
    have h2 : ({ env with patchSucceeds := b } : ReconcileEnv).toPassEnv =
      env.toPassEnv := rfl
    cases hbi : env.biGet with
    | error e => simp [reconcile, h1, hbi]
    | ok bi => simp [reconcile, h1, h2, hbi]

/-- Witness for C9's amended theorem at a concrete environment. -/
theorem reconcile_patch_exactly_once_witness :
    (reconcile envBase []).patches.length = 1 ∧
    (reconcile { envBase with patchSucceeds := false } []).err =
      (reconcile envBase []).err ∧
    (reconcile { envBase with patchSucceeds := false } []).patches =
      (reconcile envBase []).patches :=
  ⟨(reconcile_patch_exactly_once envBase []).1 biA rfl,
   ((reconcile_patch_exactly_once envBase []).2 false).1,
   ((reconcile_patch_exactly_once envBase []).2 false).2.1⟩

end Rukpak
